import Mathlib

/-!
Verification of the batch rename engine in `src/src-tauri/src/lib.rs`
(a Tauri backend exposing `read_files_in_directory` and `rename_files`).

Shallow embedding conventions:
* `PathBuf` is modelled as a list of path components (`FsPath`); each
  component is a separator-free string, as produced by directory
  enumeration. `PathBuf::with_file_name` (pop the final component, push
  the new name) becomes `withFileName`.
* `DateTime<Utc>` timestamps are modelled as `Int` (an opaque instant).
* The OS is an explicit parameter: for `rename_files` the
  `std::fs::rename` primitive is a function from the filesystem state
  (the renames applied so far) and the source/destination paths to an
  optional error string; for `read_files_in_directory` the result of
  `fs::read_dir` (including every per-entry fallible OS read) is the
  input.
* Rust `Result<T, String>` becomes `Except String T`; since
  `rename_files` mutates the filesystem, its embedding additionally
  returns the filesystem state (`FsState`), recording every rename the
  code attempted (passed to `fs::rename`) and every rename that was
  applied (succeeded).
-/

/-- A filesystem path, as its list of components; the final component is
the file name.  Components are separator-free strings. -/
abbrev FsPath := List String

/-- The path separator character, `/` (written by code point to keep the
source ASCII-clean). -/
def pathSeparator : Char := Char.ofNat 0x2F

/-- Models `PathBuf::with_file_name`: drop the final component (when
present) and append the given name, i.e. replace the final path
component.  Faithful for paths ending in a normal component and names
without separators, which is how `rename_files` uses it. -/
def withFileName (p : FsPath) (n : String) : FsPath :=
  p.dropLast ++ [n]

/-- Models Rust `char::is_whitespace` (the Unicode `White_Space`
property), which `str::trim` uses. -/
def isRustWhitespace (c : Char) : Bool :=
  c.toNat = 0x09 || c.toNat = 0x0A || c.toNat = 0x0B || c.toNat = 0x0C ||
  c.toNat = 0x0D || c.toNat = 0x20 || c.toNat = 0x85 || c.toNat = 0xA0 ||
  c.toNat = 0x1680 || (0x2000 ≤ c.toNat && c.toNat ≤ 0x200A) ||
  c.toNat = 0x2028 || c.toNat = 0x2029 || c.toNat = 0x202F ||
  c.toNat = 0x205F || c.toNat = 0x3000

/-- Models Rust `str::trim`: remove leading and trailing whitespace. -/
def rustTrim (s : String) : String :=
  String.mk (((s.data.dropWhile isRustWhitespace).reverse.dropWhile
    isRustWhitespace).reverse)

/-- Models `FileEntry` of `lib.rs`: one regular file discovered in a
directory; `new_name` starts out unset (`None`). -/
structure FileEntry where
  name : String
  path : FsPath
  modified : Int
  new_name : Option String


/-- Models `RenameFileEntry` of `lib.rs`: one rename request, with a
required `new_name`. -/
structure RenameFileEntry where
  name : String
  path : FsPath
  modified : Int
  new_name : String


/-- The filesystem state threaded through `rename_files`: the renames the
code has passed to `fs::rename` so far (`attempted`, in order) and the
subset of those that succeeded (`applied`, in order). -/
structure FsState where
  attempted : List (FsPath × FsPath)
  applied : List (FsPath × FsPath)


/-- Models the `rename_files` Tauri command of `lib.rs`.  `os` is the
`fs::rename` primitive: given the renames applied so far and the
source/destination paths it returns `none` on success or `some e` with
the OS error string.  For each request in order: if the trimmed new name
is empty, stop with the validation error message; otherwise compute the
destination with `with_file_name` and invoke the rename primitive,
stopping with the I/O error message on failure.  The returned pair is
the final filesystem state and the `Result<(), String>` value.
(`println!` calls are output-only and not modelled.) -/
def rename_files (os : List (FsPath × FsPath) → FsPath → FsPath → Option String) :
    List RenameFileEntry → FsState → FsState × Except String Unit
  | [], st => (st, Except.ok ())
  | f :: rest, st =>
    if (rustTrim f.new_name).isEmpty then
      (st, Except.error ("New name is empty for file: " ++ f.name))
    else
      match os st.applied f.path (withFileName f.path f.new_name) with
      | none =>
        rename_files os rest
          ⟨st.attempted ++ [(f.path, withFileName f.path f.new_name)],
           st.applied ++ [(f.path, withFileName f.path f.new_name)]⟩
      | some e =>
        (⟨st.attempted ++ [(f.path, withFileName f.path f.new_name)], st.applied⟩,
         Except.error ("Failed to rename \x27" ++ f.name ++ "\x27 to \x27" ++
           f.new_name ++ "\x27: " ++ e))

/-- The file type reported by `DirEntry::file_type`.  Per the Rust
documentation this query does not traverse symlinks: a symlink child
reports `symlink` whatever its target is. -/
inductive FileType where
  | file
  | dir
  | symlink
  | other


/-- Models `FileType::is_file`: true only for a regular file (in
particular false for a symlink, since the type is not followed). -/
def FileType.isFile : FileType → Bool
  | .file => true
  | _ => false

/-- Models `std::fs::Metadata` as far as the code reads it: the
`modified()` query, which may fail. -/
structure Metadata where
  modified : Except String Int


/-- Models one `DirEntry` yielded by `fs::read_dir`, with the results of
the fallible OS queries the code performs on it: `file_type()` and
`metadata()`. -/
structure RawEntry where
  name : String
  path : FsPath
  fileType : Except String FileType
  metadata : Except String Metadata


/-- The body of the `read_files_in_directory` loop over the entries
yielded by `fs::read_dir`: any failed entry read, file-type query, or
(for regular files) metadata/modified read aborts with that error;
regular files are collected into `FileEntry` records with `new_name`
unset; everything else is skipped. -/
def collectEntries : List (Except String RawEntry) → Except String (List FileEntry)
  | [] => Except.ok []
  | Except.error e :: _ => Except.error e
  | Except.ok entry :: rest =>
    match entry.fileType with
    | Except.error e => Except.error e
    | Except.ok ft =>
      if ft.isFile then
        match entry.metadata with
        | Except.error e => Except.error e
        | Except.ok md =>
          match md.modified with
          | Except.error e => Except.error e
          | Except.ok m =>
            match collectEntries rest with
            | Except.error e => Except.error e
            | Except.ok es =>
              Except.ok
                ({ name := entry.name, path := entry.path, modified := m,
                   new_name := none } :: es)
      else collectEntries rest

/-- Models the `read_files_in_directory` Tauri command of `lib.rs`.  The
input is the outcome of `fs::read_dir` on the requested path: either the
open failed with an error string, or it yielded a list of per-entry
results.  (The loop pushes each accepted entry and aborts on the first
error, which is what `collectEntries` does.) -/
def read_files_in_directory
    (dir : Except String (List (Except String RawEntry))) :
    Except String (List FileEntry) :=
  match dir with
  | Except.error e => Except.error e
  | Except.ok rs => collectEntries rs

/-- Whether processing this directory entry makes the listing fail: the
entry read itself failed, its file-type query failed, or it is a regular
file whose metadata or modified-timestamp read failed.  (Metadata is
only read for regular files, so a non-file entry with a failing
metadata query does not abort.) -/
def rawEntryFails : Except String RawEntry → Bool
  | Except.error _ => true
  | Except.ok entry =>
    match entry.fileType with
    | Except.error _ => true
    | Except.ok ft =>
      if ft.isFile then
        match entry.metadata with
        | Except.error _ => true
        | Except.ok md =>
          match md.modified with
          | Except.error _ => true
          | Except.ok _ => false
      else false

/-! Concrete data used by witnesses and counterexamples. -/

/-- A rename oracle on which every `fs::rename` call succeeds. -/
def wsOs : List (FsPath × FsPath) → FsPath → FsPath → Option String :=
  fun _ _ _ => none

/-- A rename oracle on which every `fs::rename` call fails with the OS
error `denied`. -/
def failOs : List (FsPath × FsPath) → FsPath → FsPath → Option String :=
  fun _ _ _ => some "denied"

/-- A valid rename request: `d/a.txt` to `b.txt`. -/
def wf1 : RenameFileEntry :=
  { name := "a.txt", path := ["d", "a.txt"], modified := 0, new_name := "b.txt" }

/-- A request whose proposed name is whitespace-only. -/
def wf2 : RenameFileEntry :=
  { name := "c.txt", path := ["d", "c.txt"], modified := 0, new_name := "   " }

/-- A request whose proposed name is non-empty after trimming but carries
leading and trailing whitespace. -/
def wf3 : RenameFileEntry :=
  { name := "a.txt", path := ["d", "a.txt"], modified := 0, new_name := " b " }

/-- A directory child that is a symlink (to a regular file, say): its
file-type query reports `symlink`, since `DirEntry::file_type` does not
follow the link. -/
def symlinkChild : RawEntry :=
  { name := "link.txt", path := ["d", "link.txt"],
    fileType := Except.ok FileType.symlink,
    metadata := Except.ok { modified := Except.ok 0 } }

/-- A directory child that is a subdirectory. -/
def dirChild : RawEntry :=
  { name := "sub", path := ["d", "sub"],
    fileType := Except.ok FileType.dir,
    metadata := Except.ok { modified := Except.ok 0 } }

/-! Helper lemmas. -/

/-- Running `rename_files` on `xs ++ ys` when `xs` alone succeeds is
running it on `xs` and then on `ys` from the resulting state. -/
theorem rename_files_append_ok
    (os : List (FsPath × FsPath) → FsPath → FsPath → Option String)
    (xs ys : List RenameFileEntry) (st : FsState)
    (h : (rename_files os xs st).2 = Except.ok ()) :
    rename_files os (xs ++ ys) st =
      rename_files os ys (rename_files os xs st).1 := by
  induction xs generalizing st with
  | nil => simp [rename_files]
  | cons f rest ih =>
    by_cases hempty : (rustTrim f.new_name).isEmpty
    · simp [rename_files, hempty] at h
    · cases hos : os st.applied f.path (withFileName f.path f.new_name) with
      | none =>
        simp only [rename_files, hempty, hos, List.cons_append,
          Bool.false_eq_true, if_false] at h ⊢
        exact ih _ h
      | some e =>
        simp [rename_files, hempty, hos] at h

/-- A successful listing contains no failing entry. -/
theorem collectEntries_ok_no_fail (rs : List (Except String RawEntry))
    (es : List FileEntry) (h : collectEntries rs = Except.ok es) :
    ∀ r ∈ rs, rawEntryFails r = false := by
  induction rs generalizing es with
  | nil => simp
  | cons r rest ih =>
    intro r' hr'
    cases r with
    | error e => simp [collectEntries] at h
    | ok entry =>
      cases hft : entry.fileType with
      | error e => simp [collectEntries, hft] at h
      | ok ft =>
        by_cases hfile : ft.isFile
        · cases hmd : entry.metadata with
          | error e => simp [collectEntries, hft, hfile, hmd] at h
          | ok md =>
            cases hm : md.modified with
            | error e => simp [collectEntries, hft, hfile, hmd, hm] at h
            | ok m =>
              cases hrest : collectEntries rest with
              | error e => simp [collectEntries, hft, hfile, hmd, hm, hrest] at h
              | ok es' =>
                rcases List.mem_cons.mp hr' with rfl | hmem
                · simp [rawEntryFails, hft, hfile, hmd, hm]
                · exact ih es' hrest r' hmem
        · rcases List.mem_cons.mp hr' with rfl | hmem
          · simp [rawEntryFails, hft, hfile]
          · refine ih es ?_ r' hmem
            simpa [collectEntries, hft, hfile] using h

/-- A directory child whose file-type query reports a non-file type
contributes nothing to the listing: it is skipped silently. -/
theorem collectEntries_skip (entry : RawEntry) (ft : FileType)
    (h1 : entry.fileType = Except.ok ft) (h2 : ft.isFile = false)
    (pre post : List (Except String RawEntry)) :
    collectEntries (pre ++ Except.ok entry :: post) =
      collectEntries (pre ++ post) := by
  induction pre with
  | nil => simp [collectEntries, h1, h2]
  | cons r pre ih =>
    cases r with
    | error e => simp [collectEntries]
    | ok e' =>
      cases hft : e'.fileType with
      | error e => simp [collectEntries, hft]
      | ok ft' =>
        by_cases hfile : ft'.isFile
        · cases hmd : e'.metadata with
          | error e => simp [collectEntries, hft, hfile, hmd]
          | ok md =>
            cases hm : md.modified with
            | error e => simp [collectEntries, hft, hfile, hmd, hm]
            | ok m => simp [collectEntries, hft, hfile, hmd, hm, ih]
        · simp [collectEntries, hft, hfile, ih]

/-- When `rename_files` returns `Ok`, the applied renames are exactly one
per request, in order, each from the request's path to
`with_file_name` of its proposed name. -/
theorem rename_files_ok_applied
    (os : List (FsPath × FsPath) → FsPath → FsPath → Option String)
    (files : List RenameFileEntry) (st : FsState)
    (h : (rename_files os files st).2 = Except.ok ()) :
    (rename_files os files st).1.applied =
      st.applied ++ files.map (fun f => (f.path, withFileName f.path f.new_name)) := by
  induction files generalizing st with
  | nil => simp [rename_files]
  | cons f rest ih =>
    by_cases hempty : (rustTrim f.new_name).isEmpty
    · simp [rename_files, hempty] at h
    · cases hos : os st.applied f.path (withFileName f.path f.new_name) with
      | none =>
        simp only [rename_files, hempty, hos, Bool.false_eq_true, if_false] at h ⊢
        rw [ih _ h]
        simp
      | some e => simp [rename_files, hempty, hos] at h

/-- When `rename_files` fails, strictly fewer renames were applied than
there were requests. -/
theorem rename_files_error_applied_lt
    (os : List (FsPath × FsPath) → FsPath → FsPath → Option String)
    (files : List RenameFileEntry) (st : FsState) (e : String)
    (h : (rename_files os files st).2 = Except.error e) :
    (rename_files os files st).1.applied.length <
      st.applied.length + files.length := by
  induction files generalizing st with
  | nil => simp [rename_files] at h
  | cons f rest ih =>
    by_cases hempty : (rustTrim f.new_name).isEmpty
    · simp [rename_files, hempty]
    · cases hos : os st.applied f.path (withFileName f.path f.new_name) with
      | none =>
        simp only [rename_files, hempty, hos, Bool.false_eq_true, if_false] at h ⊢
        have hlt := ih _ h
        simp at hlt ⊢
        omega
      | some e' =>
        simp [rename_files, hempty, hos]

/-- Claim C1: if a request's proposed new name trims to the empty string and
every earlier request in the batch succeeded, `rename_files` stops at
that request: it fails with the validation error naming the request's
original file name, and the filesystem state is exactly the state after
the earlier requests — no rename is attempted for this request or any
later one, and the renames already applied remain applied. -/
theorem rename_empty_name_stops
    (os : List (FsPath × FsPath) → FsPath → FsPath → Option String)
    (pre post : List RenameFileEntry) (f : RenameFileEntry) (st : FsState)
    (hempty : (rustTrim f.new_name).isEmpty = true)
    (hpre : (rename_files os pre st).2 = Except.ok ()) :
    rename_files os (pre ++ f :: post) st =
      ((rename_files os pre st).1,
       Except.error ("New name is empty for file: " ++ f.name)) := by
  rw [rename_files_append_ok os pre (f :: post) st hpre]
  simp [rename_files, hempty]

/-- Witness for C1: a two-request batch on an all-succeeding OS where the
second proposed name is whitespace-only fails with the validation
message for the second file, while the first rename stays applied and
nothing further is attempted. -/
theorem rename_empty_name_stops_witness :
    rename_files wsOs ([wf1] ++ wf2 :: []) ⟨[], []⟩ =
      ((rename_files wsOs [wf1] ⟨[], []⟩).1,
       Except.error ("New name is empty for file: " ++ wf2.name)) :=
  rename_empty_name_stops wsOs [wf1] [] wf2 ⟨[], []⟩ (by decide) (by rfl)

/-- Claim C2: if a request passes validation but the OS rename primitive fails
for it, and every earlier request succeeded, `rename_files` stops there:
it fails with the I/O error naming the original file name, the proposed
destination name and the underlying OS error; the failed rename was
attempted but nothing is applied for it or any later request, and the
renames already applied remain applied. -/
theorem rename_os_failure_stops
    (os : List (FsPath × FsPath) → FsPath → FsPath → Option String)
    (pre post : List RenameFileEntry) (f : RenameFileEntry) (st : FsState)
    (e : String)
    (hval : (rustTrim f.new_name).isEmpty = false)
    (hpre : (rename_files os pre st).2 = Except.ok ())
    (hfail : os (rename_files os pre st).1.applied f.path
      (withFileName f.path f.new_name) = some e) :
    rename_files os (pre ++ f :: post) st =
      (⟨(rename_files os pre st).1.attempted ++
          [(f.path, withFileName f.path f.new_name)],
        (rename_files os pre st).1.applied⟩,
       Except.error ("Failed to rename \x27" ++ f.name ++ "\x27 to \x27" ++
         f.new_name ++ "\x27: " ++ e)) := by
  rw [rename_files_append_ok os pre (f :: post) st hpre]
  simp [rename_files, hval, hfail]

/-- Witness for C2: a single valid request on an OS whose rename call is
denied fails with the I/O message, records the attempt and applies
nothing. -/
theorem rename_os_failure_stops_witness :
    rename_files failOs ([] ++ wf1 :: []) ⟨[], []⟩ =
      (⟨(rename_files failOs [] ⟨[], []⟩).1.attempted ++
          [(wf1.path, withFileName wf1.path wf1.new_name)],
        (rename_files failOs [] ⟨[], []⟩).1.applied⟩,
       Except.error ("Failed to rename \x27" ++ wf1.name ++ "\x27 to \x27" ++
         wf1.new_name ++ "\x27: " ++ "denied")) :=
  rename_os_failure_stops failOs [] [] wf1 ⟨[], []⟩ "denied"
    (by decide) (by rfl) (by rfl)

/-- Claim C3: `rename_files` returns `Ok` exactly when every request in the
batch was applied: the applied renames after the call extend the initial
ones by one rename per request, in order.  Any failure (validation or
OS) yields an error instead, and then strictly fewer renames were
applied. -/
theorem rename_files_ok_iff
    (os : List (FsPath × FsPath) → FsPath → FsPath → Option String)
    (files : List RenameFileEntry) (st : FsState) :
    (rename_files os files st).2 = Except.ok () ↔
      (rename_files os files st).1.applied =
        st.applied ++ files.map (fun f => (f.path, withFileName f.path f.new_name)) := by
  constructor
  · exact rename_files_ok_applied os files st
  · intro h
    cases hres : (rename_files os files st).2 with
    | ok u => exact hres ▸ rfl
    | error e =>
      have hlt := rename_files_error_applied_lt os files st e hres
      rw [h] at hlt
      simp only [List.length_append, List.length_map] at hlt
      omega

/-- Claim C10: on the empty batch `rename_files` returns `Ok` and leaves the
filesystem state untouched — no rename is attempted or applied. -/
theorem rename_files_empty_batch
    (os : List (FsPath × FsPath) → FsPath → FsPath → Option String)
    (st : FsState) :
    rename_files os [] st = (st, Except.ok ()) := rfl

/-- Claim C4: for a valid request whose proposed name contains no path
separator, the destination passed to the rename primitive (and recorded
as attempted, whether or not the OS call succeeds) replaces the final
component of the original path with the proposed name: it has the same
parent directory and the proposed name as its file name. -/
theorem rename_destination_same_parent
    (os : List (FsPath × FsPath) → FsPath → FsPath → Option String)
    (f : RenameFileEntry) (st : FsState)
    (hval : (rustTrim f.new_name).isEmpty = false)
    (hsep : pathSeparator ∉ f.new_name.data) :
    (rename_files os [f] st).1.attempted =
      st.attempted ++ [(f.path, withFileName f.path f.new_name)] ∧
    (withFileName f.path f.new_name).dropLast = f.path.dropLast ∧
    (withFileName f.path f.new_name).getLast? = some f.new_name := by
  refine ⟨?_, ?_, ?_⟩
  · cases hos : os st.applied f.path (withFileName f.path f.new_name) with
    | none => simp [rename_files, hval, hos]
    | some e => simp [rename_files, hval, hos]
  · simp [withFileName]
  · simp [withFileName]

/-- Witness for C4: renaming `d/a.txt` to `b.txt` attempts the rename to
`d/b.txt` — same parent `d`, file name `b.txt`. -/
theorem rename_destination_same_parent_witness :
    (rename_files wsOs [wf1] ⟨[], []⟩).1.attempted =
      (⟨[], []⟩ : FsState).attempted ++
        [(wf1.path, withFileName wf1.path wf1.new_name)] ∧
    (withFileName wf1.path wf1.new_name).dropLast = wf1.path.dropLast ∧
    (withFileName wf1.path wf1.new_name).getLast? = some wf1.new_name :=
  rename_destination_same_parent wsOs wf1 ⟨[], []⟩ (by decide) (by decide)

/-- Claim C9: trimming is used only by validation.  For a request whose
proposed name is non-empty after trimming but differs from its trimmed
form (it carries leading or trailing whitespace), the destination passed
to the rename primitive keeps the untrimmed proposed name as its final
component. -/
theorem rename_uses_untrimmed_name
    (os : List (FsPath × FsPath) → FsPath → FsPath → Option String)
    (f : RenameFileEntry) (st : FsState)
    (hval : (rustTrim f.new_name).isEmpty = false)
    (hws : f.new_name ≠ rustTrim f.new_name) :
    (rename_files os [f] st).1.attempted =
      st.attempted ++ [(f.path, withFileName f.path f.new_name)] ∧
    (withFileName f.path f.new_name).getLast? = some f.new_name := by
  refine ⟨?_, ?_⟩
  · cases hos : os st.applied f.path (withFileName f.path f.new_name) with
    | none => simp [rename_files, hval, hos]
    | some e => simp [rename_files, hval, hos]
  · simp [withFileName]

/-- Witness for C9: the whitespace-padded proposed name ` b ` passes
validation and is used untrimmed as the destination file name. -/
theorem rename_uses_untrimmed_name_witness :
    (rename_files wsOs [wf3] ⟨[], []⟩).1.attempted =
      (⟨[], []⟩ : FsState).attempted ++
        [(wf3.path, withFileName wf3.path wf3.new_name)] ∧
    (withFileName wf3.path wf3.new_name).getLast? = some wf3.new_name :=
  rename_uses_untrimmed_name wsOs wf3 ⟨[], []⟩ (by decide) (by decide)

/-- A directory-entry result that failed to be read. -/
def badDirEntry : Except String RawEntry := Except.error "boom"

/-- Claim C5: the listing is all-or-nothing.  If opening the directory
failed, or any single entry read, file-type query, or (for a regular
file) metadata/modified read fails during enumeration, the whole call
fails with an error and returns no entries at all. -/
theorem read_files_all_or_nothing
    (dir : Except String (List (Except String RawEntry)))
    (h : (∃ e, dir = Except.error e) ∨
      ∃ rs, dir = Except.ok rs ∧ ∃ r ∈ rs, rawEntryFails r = true) :
    ∃ e, read_files_in_directory dir = Except.error e := by
  rcases h with ⟨e, rfl⟩ | ⟨rs, rfl, r, hr, hf⟩
  · exact ⟨e, rfl⟩
  · cases hres : collectEntries rs with
    | error e => exact ⟨e, hres⟩
    | ok es =>
      have hok := collectEntries_ok_no_fail rs es hres r hr
      rw [hf] at hok
      exact absurd hok (by simp)

/-- Witness for C5: a listing in which the single entry read failed
produces an error and no entries. -/
theorem read_files_all_or_nothing_witness :
    ∃ e, read_files_in_directory (Except.ok [badDirEntry]) = Except.error e :=
  read_files_all_or_nothing (Except.ok [badDirEntry])
    (Or.inr ⟨[badDirEntry], rfl, badDirEntry, by simp, rfl⟩)

/-- Claim C6: for a directory whose children are exactly the regular
files described by `xs` (name, path, modified instant), with every OS
read succeeding, the listing returns exactly one `FileEntry` per file,
in order, with the matching name and path, the read modified instant,
and `new_name` unset. -/
theorem read_files_good_listing (xs : List (String × FsPath × Int)) :
    read_files_in_directory (Except.ok (xs.map (fun x =>
      Except.ok { name := x.1, path := x.2.1,
                  fileType := Except.ok FileType.file,
                  metadata := Except.ok { modified := Except.ok x.2.2 } }))) =
      Except.ok (xs.map (fun x =>
        { name := x.1, path := x.2.1, modified := x.2.2, new_name := none })) := by
  show collectEntries _ = _
  induction xs with
  | nil => rfl
  | cons x xs ih => simp [collectEntries, FileType.isFile, ih]

/-- Claim C7: a directory child whose file-type query reports anything
other than a regular file is skipped silently — it contributes no entry
and no error, the listing being exactly that of the remaining
children. -/
theorem read_files_skips_non_files (entry : RawEntry) (ft : FileType)
    (pre post : List (Except String RawEntry))
    (h1 : entry.fileType = Except.ok ft) (h2 : ft.isFile = false) :
    read_files_in_directory (Except.ok (pre ++ Except.ok entry :: post)) =
      read_files_in_directory (Except.ok (pre ++ post)) :=
  collectEntries_skip entry ft h1 h2 pre post

/-- Witness for C7: a subdirectory child is skipped silently. -/
theorem read_files_skips_non_files_witness :
    read_files_in_directory (Except.ok ([] ++ Except.ok dirChild :: [])) =
      read_files_in_directory (Except.ok ([] ++ [])) :=
  read_files_skips_non_files dirChild FileType.dir [] [] rfl rfl

/-- Counterexample to claim C8 as stated: a directory whose only child is
a symlink to a regular file yields an empty listing — no entry is
included for the symlink, because `DirEntry::file_type` reports the
symlink itself (it does not follow the link), so `is_file()` is false
and the child is filtered out. -/
theorem read_files_symlink_excluded :
    read_files_in_directory (Except.ok [Except.ok symlinkChild]) =
      Except.ok [] := rfl

/-- Claim C8 (amended): a directory child whose file-type query reports a
symlink — whatever the link's target — is skipped silently: it
contributes no entry and no error. -/
theorem read_files_skips_symlinks (entry : RawEntry)
    (pre post : List (Except String RawEntry))
    (h : entry.fileType = Except.ok FileType.symlink) :
    read_files_in_directory (Except.ok (pre ++ Except.ok entry :: post)) =
      read_files_in_directory (Except.ok (pre ++ post)) :=
  collectEntries_skip entry FileType.symlink h rfl pre post

/-- Witness for the amended C8: the symlink child is skipped silently. -/
theorem read_files_skips_symlinks_witness :
    read_files_in_directory (Except.ok ([] ++ Except.ok symlinkChild :: [])) =
      read_files_in_directory (Except.ok ([] ++ [])) :=
  read_files_skips_symlinks symlinkChild [] [] rfl
